import Mathlib

set_option synthInstance.maxSize 1024

/-!
Verification of the PSS (postal service over swarm) messaging core.

The Go source is shallowly embedded: byte slices become `List Nat` (the Go
`nil` slice is the empty list, matching `bytes.Equal` which treats nil and
empty as equal), `time.Time` becomes a `Nat` tick count whose zero value is
`0` (`IsZero`), whisper symmetric-key ids become indices into a key table,
and the two-level Go maps (which distinguish a missing outer map from a
missing inner entry, the latter yielding a nil pointer whose field access
faults) become association lists under `Option`.  Functions that can hit a
nil-pointer dereference return `Option`, with `none` standing for the fault.
-/

namespace Pss

/-- Association-list lookup, modelling Go map indexing. -/
def alookup {α β : Type} [DecidableEq α] : List (α × β) → α → Option β
  | [], _ => none
  | (k, v) :: rest, k0 => if k = k0 then some v else alookup rest k0

/-- Association-list upsert, modelling Go map assignment. -/
def aupd {α β : Type} [DecidableEq α] : List (α × β) → α → β → List (α × β)
  | [], k, v => [(k, v)]
  | (k0, v0) :: rest, k, v =>
      if k0 = k then (k, v) :: rest else (k0, v0) :: aupd rest k v

theorem alookup_aupd_self {α β : Type} [DecidableEq α]
    (l : List (α × β)) (k : α) (v : β) : alookup (aupd l k v) k = some v := by
  induction l with
  | nil => simp [aupd, alookup]
  | cons hd tl ih =>
    by_cases h : hd.1 = k
    · simp [aupd, h, alookup]
    · simp [aupd, h, alookup, ih]

theorem alookup_aupd_ne {α β : Type} [DecidableEq α]
    (l : List (α × β)) (k k0 : α) (v : β) (h : k ≠ k0) :
    alookup (aupd l k v) k0 = alookup l k0 := by
  induction l with
  | nil => simp [aupd, alookup, h]
  | cons hd tl ih =>
    by_cases h1 : hd.1 = k
    · simp [aupd, h1, alookup, h]
    · simp [aupd, h1, alookup, ih]

/-- `(l ++ [a]).get? l.length = some a`: the id returned for a freshly
appended whisper key retrieves that key. -/
theorem get_append_len {α : Type} (l : List α) (a : α) :
    (l ++ [a]).get? l.length = some a := by
  induction l with
  | nil => rfl
  | cons hd tl ih => exact ih

/-- Indices below the length of the left part are unaffected by appending. -/
theorem get_append_lt {α : Type} (l l2 : List α) (n : Nat) (h : n < l.length) :
    (l ++ l2).get? n = l.get? n := by
  induction l generalizing n with
  | nil => exact absurd h (by simp)
  | cons hd tl ih =>
    cases n with
    | zero => rfl
    | succ m => exact ih m (by simpa using h)

/-- Byte length of a `pot.Address`. -/
def addrLen : Nat := 32

/-- The Go zero value of `pot.Address`: 32 zero bytes. -/
def zeroAddr : List Nat := List.replicate addrLen 0

/-- `var potaddr pot.Address; copy(potaddr[:], b)`: the first 32 bytes of
`b`, zero padded. -/
def potAddrOf (b : List Nat) : List Nat :=
  (b ++ List.replicate addrLen 0).take addrLen

/-- `symkeyexpires = time.Now().Add(time.Hour * 24 * 365)`: validity span
added when a symkey is installed, in ticks. -/
def oneYear : Nat := 31536000

/-- `pssCacheEntry`: forward-cache value.  `expiresAt = 0` is Go's zero
`time.Time` (unset); `receivedFrom = []` is Go's nil byte slice. -/
structure PssCacheEntry where
  expiresAt : Nat
  receivedFrom : List Nat
deriving DecidableEq

/-- `pssPeer`: per-(address, topic) record.  The Go empty-string symkey ids
are `none`; `hasRw` models `rw != nil`. -/
structure PssPeerSt where
  pubkey : Option Nat
  recvsymkey : Option Nat
  sendsymkey : Option Nat
  symkeyexpires : Nat
  hasRw : Bool
deriving DecidableEq

/-- The Go `&pssPeer{}` zero value. -/
def defaultPeer : PssPeerSt :=
  { pubkey := none, recvsymkey := none, sendsymkey := none,
    symkeyexpires := 0, hasRw := false }

/-- Which keys open a whisper envelope: symmetrically under a raw key, or
asymmetrically (`forUs` = our private key decrypts it) with a signature
validity bit. -/
inductive EnvCrypt
  | sym (key : List Nat)
  | asym (forUs : Bool) (sigValid : Bool)
deriving DecidableEq

/-- Decrypted envelope payload as `Process` inspects it: either an opaque
byte payload, or one that deserializes as a `pssKeyMsg {From, Key}`. -/
inductive EnvPayload
  | raw (bytes : List Nat)
  | keymsg (sender : List Nat) (key : List Nat)
deriving DecidableEq

/-- A whisper envelope: topic plus opaque crypto content. -/
structure Envelope where
  topic : Nat
  crypt : EnvCrypt
  payload : EnvPayload
deriving DecidableEq

/-- `PssMsg`: the wrapped unit travelling between directly connected
peers. -/
structure PssMsg where
  To : List Nat
  payload : Envelope
deriving DecidableEq

/-- The mutable state of a `Pss` node.  `wkeys` is the whisper symkey table
(id = index); `handlers` maps a topic to its registered-handler count. -/
structure PssState where
  baseAddr : List Nat
  peerPool : List (List Nat × List (Nat × PssPeerSt))
  reverseKeyPool : List (Nat × List (Nat × List Nat))
  recvsymkeys : List Nat
  handlers : List (Nat × Nat)
  fwdcache : List (Nat × PssCacheEntry)
  cachettl : Nat
  wkeys : List (List Nat)
deriving DecidableEq

/-- A connected overlay peer as yielded by `Overlay.EachConn`: its overlay
address, proximity order, whether it lies in the proximity bin of the
iteration target, and whether `pp.Send` succeeds (transport behaviour). -/
structure OverlayConn where
  addr : List Nat
  po : Nat
  isproxbin : Bool
  sendOk : Bool
deriving DecidableEq

/-- External collaborators: the content-addressed digest of a message
(`storeMsg` via the DPA) and the overlay iterator (`EachConn` order for a
given target). -/
structure NetEnv where
  hashFn : PssMsg → Nat
  conns : List Nat → List OverlayConn

/-- `checkFwdCache`: true when an entry for the digest exists and either
its expiry is in the future, or its expiry is the zero time and the
candidate address equals the recorded sender under `bytes.Equal`. -/
def checkFwdCache (st : PssState) (addr : List Nat) (digest : Nat) (now : Nat) : Bool :=
  match alookup st.fwdcache digest with
  | none => false
  | some e =>
    if now < e.expiresAt then true
    else if e.expiresAt = 0 ∧ addr = e.receivedFrom then true
    else false

/-- `addFwdCacheSender`: upsert the entry, setting `receivedFrom`. -/
def addFwdCacheSender (st : PssState) (addr : List Nat) (digest : Nat) : PssState :=
  let entry := (alookup st.fwdcache digest).getD { expiresAt := 0, receivedFrom := [] }
  { st with fwdcache := aupd st.fwdcache digest { entry with receivedFrom := addr } }

/-- `addFwdCacheExpire`: upsert the entry, setting `expiresAt = now + ttl`. -/
def addFwdCacheExpire (st : PssState) (digest : Nat) (now : Nat) : PssState :=
  let entry := (alookup st.fwdcache digest).getD { expiresAt := 0, receivedFrom := [] }
  { st with fwdcache := aupd st.fwdcache digest { entry with expiresAt := now + st.cachettl } }

/-- `AddToCache`: record the address the message was received from under
the message's digest. -/
def AddToCache (net : NetEnv) (st : PssState) (addr : List Nat) (msg : PssMsg) : PssState :=
  addFwdCacheSender st addr (net.hashFn msg)

/-- Two-level lookup in the peer pool: `peerPool[id][topic]` where the first
`none` is a nil inner map and the second a nil `*pssPeer`. -/
def pget (pool : List (List Nat × List (Nat × PssPeerSt))) (id : List Nat) (topic : Nat) :
    Option PssPeerSt :=
  match alookup pool id with
  | none => none
  | some inner => alookup inner topic

/-- `preparePeerTopic` effect on the pool: create the inner map and the
`&pssPeer{}` record when missing. -/
def prepPool (pool : List (List Nat × List (Nat × PssPeerSt))) (id : List Nat) (topic : Nat) :
    List (List Nat × List (Nat × PssPeerSt)) :=
  match alookup pool id with
  | none => aupd pool id [(topic, defaultPeer)]
  | some inner =>
    match alookup inner topic with
    | none => aupd pool id (aupd inner topic defaultPeer)
    | some _ => pool

/-- In-place mutation of the `*pssPeer` at `(id, topic)` (Go pointer write);
no effect when the record is absent. -/
def updPool (pool : List (List Nat × List (Nat × PssPeerSt))) (id : List Nat) (topic : Nat)
    (f : PssPeerSt → PssPeerSt) : List (List Nat × List (Nat × PssPeerSt)) :=
  match alookup pool id with
  | none => pool
  | some inner =>
    match alookup inner topic with
    | none => pool
    | some psp => aupd pool id (aupd inner topic (f psp))

/-- `preparePeerTopic`, lifted to the node state (the Go boolean return is
used by no caller in the source). -/
def preparePeerTopic (st : PssState) (id : List Nat) (topic : Nat) : PssState :=
  { st with peerPool := prepPool st.peerPool id topic }

/-- `AddPublicKey`: prepare the record and set its public key. -/
def AddPublicKey (st : PssState) (addr : List Nat) (topic : Nat) (pk : Nat) : PssState :=
  { st with peerPool :=
      updPool (prepPool st.peerPool addr topic) addr topic (fun p => { p with pubkey := some pk }) }

/-- `SetOutgoingSymmetricKey`: register the raw key with the whisper codec
(fresh id = current table length), prepare the record, set `sendsymkey` to
the new id and bump `symkeyexpires` one year ahead. -/
def SetOutgoingSymmetricKey (st : PssState) (addr : List Nat) (topic : Nat)
    (key : List Nat) (now : Nat) : PssState :=
  let keyid := st.wkeys.length
  { st with
    wkeys := st.wkeys ++ [key],
    peerPool := updPool (prepPool st.peerPool addr topic) addr topic
      (fun p => { p with sendsymkey := some keyid, symkeyexpires := now + oneYear }) }

/-- `SetIncomingSymmetricKey`: additionally append the id to the inbound
try list and write the reverse index entry `(keyid, topic) → addr`. -/
def SetIncomingSymmetricKey (st : PssState) (addr : List Nat) (topic : Nat)
    (key : List Nat) (now : Nat) : PssState :=
  let keyid := st.wkeys.length
  let rinner := (alookup st.reverseKeyPool keyid).getD []
  { st with
    wkeys := st.wkeys ++ [key],
    recvsymkeys := st.recvsymkeys ++ [keyid],
    peerPool := updPool (prepPool st.peerPool addr topic) addr topic
      (fun p => { p with recvsymkey := some keyid, symkeyexpires := now + oneYear }),
    reverseKeyPool := aupd st.reverseKeyPool keyid (aupd rinner topic addr) }

/-- `isSecured`: `none` models the nil-pointer dereference the Go code hits
when the outer map has the address but the inner map lacks the topic. -/
def isSecured? (st : PssState) (id : List Nat) (topic : Nat) (now : Nat) : Option Bool :=
  match alookup st.peerPool id with
  | none => some false
  | some inner =>
    match alookup inner topic with
    | none => none
    | some psp =>
      if psp.symkeyexpires < now then some false
      else if psp.recvsymkey = none ∨ psp.sendsymkey = none then some false
      else some true

/-- `isActive`: same fault structure as `isSecured`, testing `rw != nil`. -/
def isActive? (st : PssState) (id : List Nat) (topic : Nat) : Option Bool :=
  match alookup st.peerPool id with
  | none => some false
  | some inner =>
    match alookup inner topic with
    | none => none
    | some psp => some psp.hasRw

/-- The raw outbound symkey installed for `(id, topic)`: follow
`sendsymkey` into the whisper key table. -/
def outboundRawKey (st : PssState) (id : List Nat) (topic : Nat) : Option (List Nat) :=
  (pget st.peerPool id topic).bind (fun psp => psp.sendsymkey.bind (st.wkeys.get? ·))

/-- The raw inbound symkey installed for `(id, topic)`. -/
def inboundRawKey (st : PssState) (id : List Nat) (topic : Nat) : Option (List Nat) :=
  (pget st.peerPool id topic).bind (fun psp => psp.recvsymkey.bind (st.wkeys.get? ·))

/-- `isSelfRecipient`: `bytes.Equal(msg.To, self.Overlay.BaseAddr())`. -/
def isSelfRecipient (st : PssState) (msg : PssMsg) : Bool :=
  msg.To = st.baseAddr

/-- Outcome of `Forward`.  `selfDeliver` marks the branch in which the code
returns `self.Process(msg)` (loopback); `noPeers` is the error
"unable to forward to any peers". -/
inductive ForwardRes
  | selfDeliver
  | ok
  | noPeers
deriving DecidableEq

/-- The `EachConn` fan-out callback, iterated over the proximity-ordered
peer list.  Produces the trace of transport attempts `(peer address,
success)` in order.  A peer matching the forward cache is skipped (iteration
continues); a failed send continues; a successful send stops the iteration
exactly when the peer address equals the recipient or the peer is not in the
recipient's proximity bin. -/
def fanout (st : PssState) (msgTo : List Nat) (digest : Nat) (now : Nat) :
    List OverlayConn → List (List Nat × Bool)
  | [] => []
  | p :: ps =>
    if checkFwdCache st p.addr digest now then fanout st msgTo digest now ps
    else if p.sendOk = false then (p.addr, false) :: fanout st msgTo digest now ps
    else if msgTo = p.addr ∨ p.isproxbin = false then [(p.addr, true)]
    else (p.addr, true) :: fanout st msgTo digest now ps

/-- Number of successful sends in a fan-out trace (the `sent` counter). -/
def sentCount (tr : List (List Nat × Bool)) : Nat :=
  (tr.filter (fun a => a.2)).length

/-- `Forward`: self-check, digest, flood guard (`checkFwdCache` with nil
candidate), fan-out over at most 256 peers, then error when nothing was
sent, else mark the digest expiring.  Returns the new state, the result and
the trace of transport attempts. -/
def Forward (net : NetEnv) (st : PssState) (msg : PssMsg) (now : Nat) :
    PssState × ForwardRes × List (List Nat × Bool) :=
  if isSelfRecipient st msg then (st, .selfDeliver, [])
  else
    let digest := net.hashFn msg
    if checkFwdCache st [] digest now then (st, .ok, [])
    else
      let tr := fanout st msg.To digest now ((net.conns msg.To).take 256)
      if sentCount tr = 0 then (st, .noPeers, tr)
      else (addFwdCacheExpire st digest now, .ok, tr)

/-- `Envelope.OpenSymmetric`: succeeds exactly on the sealing key. -/
def openSymmetric (e : Envelope) (key : List Nat) : Option EnvPayload :=
  match e.crypt with
  | .sym k => if k = key then some e.payload else none
  | .asym _ _ => none

/-- `Envelope.OpenAsymmetric` with our private key: payload plus the
signature-validity bit (`recvmsg.Validate()`). -/
def openAsymmetric (e : Envelope) : Option (EnvPayload × Bool) :=
  match e.crypt with
  | .sym _ => none
  | .asym forUs s => if forUs then some (e.payload, s) else none

/-- Default for a missing reverse-index entry: the Go zero `pot.Address`. -/
def revLookupD (st : PssState) (kid : Nat) (topic : Nat) : List Nat :=
  match alookup st.reverseKeyPool kid with
  | none => zeroAddr
  | some inner => (alookup inner topic).getD zeroAddr

/-- The symmetric-decrypt loop of `Process`: try the inbound symkey ids in
insertion order; on the first id whose key opens the envelope, identify the
sender through the reverse index. -/
def symTryList (st : PssState) (e : Envelope) : List Nat → Option (Nat × List Nat)
  | [] => none
  | kid :: rest =>
    match st.wkeys.get? kid with
    | none => symTryList st e rest
    | some key =>
      match openSymmetric e key with
      | none => symTryList st e rest
      | some _ => some (kid, revLookupD st kid e.topic)

/-- The envelope sealed by a symmetric send: recipient, topic, payload and
the raw key it was sealed under. -/
structure SealInfo where
  sealTo : List Nat
  sealTopic : Nat
  sealPayload : List Nat
  sealKey : List Nat
deriving DecidableEq

/-- Result of `SendSym`.  `notSecured` is the synchronous
"missing complete handshake" error; `missingSymkey` the "missing valid
symkey" error; the rest map the forwarder's outcome through. -/
inductive SendRes
  | ok
  | notSecured
  | missingSymkey
  | selfDelivered
  | noPeers
deriving DecidableEq

/-- Map the forwarder's outcome to the value `SendSym` returns. -/
def sendResOfFwd : ForwardRes → SendRes
  | .selfDeliver => .selfDelivered
  | .ok => .ok
  | .noPeers => .noPeers

/-- `SendSym` (with the `send` helper inlined): check `isSecured`, fetch the
outbound raw key, seal a symmetric envelope and hand the wrapped message to
`Forward`.  `none` is the nil-pointer fault inherited from `isSecured`; the
`Option SealInfo` component records whether an envelope was sealed, and the
trace records transport attempts. -/
def SendSym (net : NetEnv) (st : PssState) (toB : List Nat) (topic : Nat)
    (msg : List Nat) (now : Nat) :
    Option (PssState × SendRes × Option SealInfo × List (List Nat × Bool)) :=
  let potaddr := potAddrOf toB
  match isSecured? st potaddr topic now with
  | none => none
  | some false => some (st, .notSecured, none, [])
  | some true =>
    match pget st.peerPool potaddr topic with
    | none => none
    | some psp =>
      match psp.sendsymkey.bind (st.wkeys.get? ·) with
      | none => some (st, .missingSymkey, none, [])
      | some rawkey =>
        let envlp : Envelope := { topic := topic, crypt := .sym rawkey, payload := .raw msg }
        let fwd := Forward net st { To := toB, payload := envlp } now
        some (fwd.1, sendResOfFwd fwd.2.1, some ⟨toB, topic, msg, rawkey⟩, fwd.2.2)

/-- Errors `Process` returns. -/
inductive ProcErr
  | invalidSignature
  | invalidHandshake
  | noHandler
deriving DecidableEq

/-- Observable outcome of `Process`: `ok` covers every `return nil`
(including the silent drop of an undecipherable message and the empty
not-yet-secured branch); `dispatched` marks the invocation of the topic
handlers with the identified sender and decrypted payload. -/
inductive ProcOut
  | ok
  | dispatched (sender : List Nat) (payload : EnvPayload)
  | err (e : ProcErr)
deriving DecidableEq

/-- `Process`: symmetric demultiplex first; otherwise the asymmetric
handshake branch, which installs the received key as outbound, and, when the
pair is not yet secured, registers a generated fresh key (`freshKey`, the
oracle for `GenerateSymKey`) as inbound and sends it back with `SendSym`.
`none` models a nil-pointer fault in an `isSecured` call.  The last two
components carry the `SendSym` seal record and transport trace. -/
def Process (net : NetEnv) (st : PssState) (e : Envelope) (freshKey : List Nat) (now : Nat) :
    Option (PssState × ProcOut × Option SealInfo × List (List Nat × Bool)) :=
  match symTryList st e st.recvsymkeys with
  | some (_, from0) =>
    match isSecured? st from0 e.topic now with
    | none => none
    | some false => some (st, .ok, none, [])
    | some true =>
      if (alookup st.handlers e.topic).getD 0 = 0 then
        some (st, .err .noHandler, none, [])
      else some (st, .dispatched from0 e.payload, none, [])
  | none =>
    match openAsymmetric e with
    | none => some (st, .ok, none, [])
    | some (payload, sigValid) =>
      if sigValid = false then some (st, .err .invalidSignature, none, [])
      else
        match payload with
        | .raw _ => some (st, .err .invalidHandshake, none, [])
        | .keymsg fromB key =>
          let from0 := potAddrOf fromB
          let st1 := SetOutgoingSymmetricKey st from0 e.topic key now
          match isSecured? st1 from0 e.topic now with
          | none => none
          | some true => some (st1, .ok, none, [])
          | some false =>
            let st2 := { st1 with wkeys := st1.wkeys ++ [freshKey] }
            let st3 := SetIncomingSymmetricKey st2 from0 e.topic freshKey now
            match SendSym net st3 fromB e.topic freshKey now with
            | none => none
            | some (st4, _, sl, tr) => some (st4, .ok, sl, tr)

/-- The forward-cache predicate as the specification words it: rule (b) is
restricted to a non-null candidate, so an entry with expiry unset and sender
unset yields false for a null candidate.  Stated for comparison with
`checkFwdCache`. -/
def shouldSkipSpec (st : PssState) (addr : List Nat) (digest : Nat) (now : Nat) : Bool :=
  match alookup st.fwdcache digest with
  | none => false
  | some e =>
    if now < e.expiresAt then true
    else if addr ≠ [] ∧ e.expiresAt = 0 ∧ addr = e.receivedFrom then true
    else false

/-- An empty node state used for concrete evaluations. -/
def st0 : PssState :=
  { baseAddr := [1], peerPool := [], reverseKeyPool := [], recvsymkeys := [],
    handlers := [], fwdcache := [], cachettl := 2, wkeys := [] }

/-- An arbitrary sealed envelope used as opaque payload of wrapped
messages. -/
def envRaw0 : Envelope := { topic := 1, crypt := .sym [5], payload := .raw [] }

end Pss

namespace Pss

/-! ### Claim C1 — `checkFwdCache` semantics -/

/-- Concrete cache state: one entry with zero expiry and nil sender. -/
def stC1 : PssState :=
  { st0 with fwdcache := [(7, { expiresAt := 0, receivedFrom := [] })] }

/-- C1 counterexample: with an entry whose expiry is unset and whose last
sender is unset, the code's `checkFwdCache` with a null candidate returns
`true` (Go `bytes.Equal(nil, nil)` is `true`), while the claimed predicate
returns `false`. -/
theorem C1_counterexample :
    checkFwdCache stC1 [] 7 5 = true ∧ shouldSkipSpec stC1 [] 7 5 = false := by
  decide

/-- C1 (amended): `checkFwdCache(c, d)` returns true iff a cache entry for
`d` exists and either its expiry is in the future, or its expiry is unset
and `c` equals the stored last sender under byte equality — with no null
exception: a null candidate equals an unset (nil) last sender, so an entry
with expiry unset and sender unset yields `true` for a null candidate. -/
theorem C1_checkFwdCache_iff (st : PssState) (addr : List Nat) (digest now : Nat) :
    checkFwdCache st addr digest now = true ↔
      ∃ e, alookup st.fwdcache digest = some e ∧
        (now < e.expiresAt ∨ (e.expiresAt = 0 ∧ addr = e.receivedFrom)) := by
  unfold checkFwdCache
  cases h : alookup st.fwdcache digest with
  | none => simp
  | some e =>
    by_cases h1 : now < e.expiresAt
    · simp [h1]
    · by_cases h2 : e.expiresAt = 0 ∧ addr = e.receivedFrom
      · simp [h1, h2]
      · simp [h1, h2]

/-! ### Claim C8 — unsecured symmetric send -/

/-- C8: whenever the `(addr, topic)` pair is not secured (the `isSecured`
check evaluates to false), `SendSym` returns the synchronous
"missing complete handshake" error, with the state unchanged, no envelope
sealed and no transport attempt. -/
theorem C8_sendsym_not_secured (net : NetEnv) (st : PssState) (toB : List Nat)
    (topic : Nat) (msg : List Nat) (now : Nat)
    (h : isSecured? st (potAddrOf toB) topic now = some false) :
    SendSym net st toB topic msg now = some (st, .notSecured, none, []) := by
  simp [SendSym, h]

/-- A network environment with a single connected peer. -/
def netW : NetEnv :=
  { hashFn := fun _ => 7,
    conns := fun _ => [{ addr := [9], po := 0, isproxbin := false, sendOk := true }] }

/-- C8 witness: a concrete unsecured pair gets the synchronous error. -/
theorem C8_witness :
    SendSym netW st0 [2] 1 [3] 5 = some (st0, .notSecured, none, []) :=
  C8_sendsym_not_secured netW st0 [2] 1 [3] 5 (by decide)

/-! ### Claim C6 — fan-out stop condition -/

/-- C6: after a successful send to a candidate peer (not skipped by the
cache, transport succeeds), the fan-out stops exactly when the peer's
address equals the message destination or the peer is not in the proximity
bin of the recipient; otherwise iteration continues with the remaining
peers. -/
theorem C6_fanout_stop (st : PssState) (msgTo : List Nat) (digest now : Nat)
    (p : OverlayConn) (ps : List OverlayConn)
    (hskip : checkFwdCache st p.addr digest now = false)
    (hok : p.sendOk = true) :
    fanout st msgTo digest now (p :: ps) =
      (p.addr, true) ::
        (if msgTo = p.addr ∨ p.isproxbin = false then []
         else fanout st msgTo digest now ps) := by
  rw [fanout, hskip, hok]
  by_cases hstop : msgTo = p.addr ∨ p.isproxbin = false
  · simp [hstop]
  · simp [hstop]

/-- A proximity-bin peer used by the C6 witness. -/
def connQ1 : OverlayConn := { addr := [8], po := 1, isproxbin := true, sendOk := true }

/-- A second proximity-bin peer used by the C6 witness. -/
def connQ2 : OverlayConn := { addr := [9], po := 0, isproxbin := true, sendOk := true }

/-- C6 witness: a proximity-bin peer that is not the recipient does not
stop the iteration; evaluated on a concrete two-peer list. -/
theorem C6_witness :
    fanout st0 [2] 7 5 [connQ1, connQ2] =
      (connQ1.addr, true) ::
        (if [2] = connQ1.addr ∨ connQ1.isproxbin = false then []
         else fanout st0 [2] 7 5 [connQ2]) :=
  C6_fanout_stop st0 [2] 7 5 connQ1 [connQ2] (by decide) (by decide)

/-! ### Claim C4 — `Forward` outcome structure -/

/-- C4: for a message not addressed to the node itself, `Forward` (i) on a
flood-guard hit returns success with no state change and no transport
attempt; (ii) returns the "unable to forward" error when the fan-out
produced zero successful sends; (iii) otherwise returns success and marks
the digest expiring at `now` plus the cache TTL. -/
theorem C4_forward_outcomes (net : NetEnv) (st : PssState) (msg : PssMsg) (now : Nat)
    (hself : isSelfRecipient st msg = false) :
    (checkFwdCache st [] (net.hashFn msg) now = true →
        Forward net st msg now = (st, .ok, [])) ∧
    (checkFwdCache st [] (net.hashFn msg) now = false →
      (sentCount (fanout st msg.To (net.hashFn msg) now ((net.conns msg.To).take 256)) = 0 →
          Forward net st msg now =
            (st, .noPeers,
              fanout st msg.To (net.hashFn msg) now ((net.conns msg.To).take 256))) ∧
      (sentCount (fanout st msg.To (net.hashFn msg) now ((net.conns msg.To).take 256)) ≠ 0 →
          (Forward net st msg now).2.1 = .ok ∧
          (Forward net st msg now).2.2 =
            fanout st msg.To (net.hashFn msg) now ((net.conns msg.To).take 256) ∧
          ∃ e, alookup (Forward net st msg now).1.fwdcache (net.hashFn msg) = some e ∧
            e.expiresAt = now + st.cachettl)) := by
  refine ⟨fun hguard => ?_, fun hguard => ⟨fun hzero => ?_, fun hpos => ?_⟩⟩
  · unfold Forward
    simp [hself, hguard]
  · unfold Forward
    simp [hself, hguard, hzero]
  · unfold Forward
    simp only [hself, Bool.false_eq_true, if_false, hguard, hpos, ite_false]
    exact ⟨trivial, trivial, ⟨_, alookup_aupd_self _ _ _, rfl⟩⟩

/-- C4 witness: instantiation at a concrete state with one reachable peer. -/
theorem C4_witness :
    (checkFwdCache st0 [] (netW.hashFn { To := [2], payload := envRaw0 }) 3 = true →
        Forward netW st0 { To := [2], payload := envRaw0 } 3 = (st0, .ok, [])) ∧
    (checkFwdCache st0 [] (netW.hashFn { To := [2], payload := envRaw0 }) 3 = false →
      (sentCount (fanout st0 [2] (netW.hashFn { To := [2], payload := envRaw0 }) 3
            ((netW.conns [2]).take 256)) = 0 →
          Forward netW st0 { To := [2], payload := envRaw0 } 3 =
            (st0, .noPeers,
              fanout st0 [2] (netW.hashFn { To := [2], payload := envRaw0 }) 3
                ((netW.conns [2]).take 256))) ∧
      (sentCount (fanout st0 [2] (netW.hashFn { To := [2], payload := envRaw0 }) 3
            ((netW.conns [2]).take 256)) ≠ 0 →
          (Forward netW st0 { To := [2], payload := envRaw0 } 3).2.1 = .ok ∧
          (Forward netW st0 { To := [2], payload := envRaw0 } 3).2.2 =
            fanout st0 [2] (netW.hashFn { To := [2], payload := envRaw0 }) 3
              ((netW.conns [2]).take 256) ∧
          ∃ e, alookup (Forward netW st0 { To := [2], payload := envRaw0 } 3).1.fwdcache
                (netW.hashFn { To := [2], payload := envRaw0 }) = some e ∧
            e.expiresAt = 3 + st0.cachettl)) :=
  C4_forward_outcomes netW st0 { To := [2], payload := envRaw0 } 3 (by decide)

/-! ### Claim C3 — no bounce back to the last sender -/

/-- An address the forward cache makes `checkFwdCache` return true for is
never attempted during the fan-out. -/
theorem fanout_skip_not_mem (st : PssState) (msgTo : List Nat) (digest now : Nat)
    (a : List Nat) (ha : checkFwdCache st a digest now = true) :
    ∀ (l : List OverlayConn) (b : Bool), (a, b) ∉ fanout st msgTo digest now l := by
  intro l
  induction l with
  | nil => intro b h; simp [fanout] at h
  | cons p ps ih =>
    intro b h
    rw [fanout] at h
    by_cases hp : p.addr = a
    · rw [hp, ha] at h
      simp at h
      exact ih b h
    · by_cases hc : checkFwdCache st p.addr digest now = true
      · rw [hc] at h
        simp at h
        exact ih b h
      · rw [Bool.not_eq_true] at hc
        rw [hc] at h
        simp at h
        by_cases hok : p.sendOk = false
        · rw [hok] at h
          simp at h
          rcases h with h | h
          · exact hp h.1.symm
          · exact ih b h
        · rw [Bool.not_eq_false] at hok
          rw [hok] at h
          simp at h
          by_cases hstop : msgTo = p.addr ∨ p.isproxbin = false
          · rw [if_pos hstop] at h
            simp at h
            exact hp h.1.symm
          · rw [if_neg hstop] at h
            simp at h
            rcases h with h | h
            · exact hp h.1.symm
            · exact ih b h

/-- C3 (amended): if the cached entry for the message digest has its expiry
unset (the state a digest is in during its first forward cycle) and records
`p1` as the address the message was received from, then `Forward` never
attempts a send to `p1` — a candidate equal to the recorded last sender is
skipped and iteration continues with the next peer.  (A stale *expired*
timestamp left by an earlier completed fan-out defeats the skip, which is
the correction; see the counterexample.) -/
theorem C3_no_bounce (net : NetEnv) (st : PssState) (msg : PssMsg) (now : Nat)
    (p1 : List Nat) (e : PssCacheEntry)
    (he : alookup st.fwdcache (net.hashFn msg) = some e)
    (hz : e.expiresAt = 0) (hr : e.receivedFrom = p1) :
    ∀ b, (p1, b) ∉ (Forward net st msg now).2.2 := by
  have hchk : checkFwdCache st p1 (net.hashFn msg) now = true := by
    unfold checkFwdCache
    rw [he]
    simp [hz, hr]
  intro b
  unfold Forward
  by_cases hself : isSelfRecipient st msg = true
  · simp [hself]
  · rw [Bool.not_eq_true] at hself
    simp only [hself, Bool.false_eq_true, if_false]
    by_cases hguard : checkFwdCache st [] (net.hashFn msg) now = true
    · simp [hguard]
    · rw [Bool.not_eq_true] at hguard
      simp only [hguard, Bool.false_eq_true, if_false]
      by_cases hzero :
          sentCount (fanout st msg.To (net.hashFn msg) now ((net.conns msg.To).take 256)) = 0
      · simp only [hzero, if_true]
        exact fanout_skip_not_mem st msg.To (net.hashFn msg) now p1 hchk _ b
      · simp only [hzero, if_false]
        exact fanout_skip_not_mem st msg.To (net.hashFn msg) now p1 hchk _ b

/-- Network for the C3 counterexample: one connected peer `[9]` and a
constant digest function. -/
def netC3 : NetEnv :=
  { hashFn := fun _ => 5,
    conns := fun _ => [{ addr := [9], po := 0, isproxbin := false, sendOk := true }] }

/-- The wrapped message of the C3 counterexample. -/
def msgC3 : PssMsg := { To := [2], payload := envRaw0 }

/-- C3 counterexample: digest 5 was forwarded at time 1 (expiry 1+2=3);
after the TTL passes the same message arrives from neighbor `[9]` and is
recorded (`AddToCache`); forwarding it at time 10 sends it straight back to
`[9]`, because the skip in the fan-out requires the entry's expiry to be
*unset*, and here it is a stale past timestamp.  This refutes the claim
that the node never sends a message back to the neighbor it received it
from in the current forward cycle. -/
theorem C3_counterexample :
    alookup (AddToCache netC3 (addFwdCacheExpire st0 5 1) [9] msgC3).fwdcache 5 =
        some { expiresAt := 3, receivedFrom := [9] } ∧
    ([9], true) ∈
      (Forward netC3 (AddToCache netC3 (addFwdCacheExpire st0 5 1) [9] msgC3) msgC3 10).2.2 := by
  decide

/-- C3 witness: instantiation of the amended theorem at a concrete state
whose cache entry for the digest has zero expiry and sender `[9]`. -/
theorem C3_witness :
    ([9], true) ∉ (Forward netC3 (AddToCache netC3 st0 [9] msgC3) msgC3 10).2.2 :=
  C3_no_bounce netC3 (AddToCache netC3 st0 [9] msgC3) msgC3 10 [9]
    { expiresAt := 0, receivedFrom := [9] } (by decide) (by decide) (by decide) true

/-! ### Claim C5 — `mark_sender` after a successful send -/

/-- C5 (code bug evidence): at a state with an empty cache and one
connected peer `[9]`, `Forward` completes one successful send, yet the
cache entry it leaves for the digest still has `receivedFrom` empty: the
fan-out loop never calls `addFwdCacheSender` for the peer it just sent to,
contrary to the specified `mark_sender` step (only the `sent` counter is
incremented, as the trace shows). -/
theorem C5_no_mark_sender :
    sentCount (Forward netC3 st0 msgC3 10).2.2 = 1 ∧
    (Forward netC3 st0 msgC3 10).2.2 = [([9], true)] ∧
    alookup (Forward netC3 st0 msgC3 10).1.fwdcache 5 =
      some { expiresAt := 12, receivedFrom := [] } := by
  decide

/-! ### Claim C7 — asymmetric-branch error handling in `Process` -/

/-- No symmetric key opens an asymmetrically sealed envelope, so the
symmetric demultiplex loop fails on it. -/
theorem symTryList_asym (st : PssState) (e : Envelope) (f s : Bool)
    (hc : e.crypt = .asym f s) :
    ∀ l, symTryList st e l = none := by
  intro l
  induction l with
  | nil => rfl
  | cons kid rest ih =>
    rw [symTryList]
    cases st.wkeys.get? kid with
    | none => exact ih
    | some key =>
      have hop : openSymmetric e key = none := by
        unfold openSymmetric
        rw [hc]
      simp only [hop]
      exact ih

/-- C7: for an inbound message matched by no symmetric key, (i) a failed
asymmetric decryption is dropped silently, `Process` returning success with
nothing changed; (ii) a successful decryption with an invalid signature
returns the "invalid signature" error; (iii) a valid signature whose
payload does not deserialize as a handshake key message returns the
"invalid handshake msg" error. -/
theorem C7_process_asym_errors (net : NetEnv) (st : PssState) (e : Envelope)
    (freshKey : List Nat) (now : Nat) :
    ((∃ s, e.crypt = .asym false s) →
        Process net st e freshKey now = some (st, .ok, none, [])) ∧
    (e.crypt = .asym true false →
        Process net st e freshKey now = some (st, .err .invalidSignature, none, [])) ∧
    ((∃ b, e.crypt = .asym true true ∧ e.payload = .raw b) →
        Process net st e freshKey now = some (st, .err .invalidHandshake, none, [])) := by
  refine ⟨fun ⟨s, hc⟩ => ?_, fun hc => ?_, fun ⟨b, hc, hp⟩ => ?_⟩
  · unfold Process
    rw [symTryList_asym st e false s hc]
    unfold openAsymmetric
    rw [hc]
    simp
  · unfold Process
    rw [symTryList_asym st e true false hc]
    unfold openAsymmetric
    rw [hc]
    simp
  · unfold Process
    rw [symTryList_asym st e true true hc]
    unfold openAsymmetric
    rw [hc, hp]
    simp

/-- An envelope our private key does not open. -/
def envAsymNotForUs : Envelope := { topic := 1, crypt := .asym false true, payload := .raw [4] }

/-- An envelope for us with an invalid signature. -/
def envAsymBadSig : Envelope := { topic := 1, crypt := .asym true false, payload := .raw [4] }

/-- An envelope for us, validly signed, whose payload is not a handshake
key message. -/
def envAsymBadPayload : Envelope := { topic := 1, crypt := .asym true true, payload := .raw [4] }

/-- C7 witness: the three error behaviours at concrete envelopes. -/
theorem C7_witness :
    Process netW st0 envAsymNotForUs [] 5 = some (st0, .ok, none, []) ∧
    Process netW st0 envAsymBadSig [] 5 = some (st0, .err .invalidSignature, none, []) ∧
    Process netW st0 envAsymBadPayload [] 5 = some (st0, .err .invalidHandshake, none, []) :=
  ⟨(C7_process_asym_errors netW st0 envAsymNotForUs [] 5).1 ⟨true, rfl⟩,
   (C7_process_asym_errors netW st0 envAsymBadSig [] 5).2.1 rfl,
   (C7_process_asym_errors netW st0 envAsymBadPayload [] 5).2.2 ⟨[4], rfl, rfl⟩⟩

/-! ### Claim C10 — totality of the secured/active checks -/

/-- `isSecured` faults exactly when the outer map has the address but the
inner map lacks the topic. -/
theorem isSecured_none_iff (st : PssState) (id : List Nat) (topic now : Nat) :
    isSecured? st id topic now = none ↔
      ∃ inner, alookup st.peerPool id = some inner ∧ alookup inner topic = none := by
  cases houter : alookup st.peerPool id with
  | none => simp [isSecured?, houter]
  | some inner =>
    cases hinner : alookup inner topic with
    | none => simp [isSecured?, houter, hinner]
    | some psp =>
      simp only [isSecured?, houter, hinner]
      constructor
      · intro h
        split_ifs at h <;> exact absurd h (by simp)
      · rintro ⟨inner2, hi2, ht2⟩
        rw [Option.some_inj] at hi2
        subst hi2
        rw [hinner] at ht2
        exact absurd ht2 (by simp)

/-- A positive `isSecured` answer exhibits the peer record with both key
ids set. -/
theorem isSecured_true_pget (st : PssState) (id : List Nat) (topic now : Nat)
    (h : isSecured? st id topic now = some true) :
    ∃ psp, pget st.peerPool id topic = some psp ∧
      psp.sendsymkey ≠ none ∧ psp.recvsymkey ≠ none := by
  cases houter : alookup st.peerPool id with
  | none => rw [isSecured?, houter] at h; simp at h
  | some inner =>
    cases hinner : alookup inner topic with
    | none =>
      simp only [isSecured?, houter, hinner] at h
      exact absurd h (by simp)
    | some psp =>
      simp only [isSecured?, houter, hinner] at h
      refine ⟨psp, by simp [pget, houter, hinner], ?_, ?_⟩ <;>
        · split_ifs at h with h1 h2
          · simp at h
          · simp at h
          · push_neg at h2
            first
              | exact h2.2
              | exact h2.1

/-- C10: `isSecured` and `isActive` return `false` without fault when the
peer pool has no record for the address at all; when the pool has a record
for the address (under some other topic) but none for the queried topic,
both fault (nil-pointer dereference, modelled `none`); and `SendSym` faults
exactly in the latter situation, so it is total exactly when the
destination address is entirely absent or has a state for the queried
topic. -/
theorem C10_lookup_totality :
    (∀ (st : PssState) (id : List Nat) (topic now : Nat),
        alookup st.peerPool id = none →
          isSecured? st id topic now = some false ∧ isActive? st id topic = some false) ∧
    (∀ (st : PssState) (id : List Nat) (topic now : Nat) inner,
        alookup st.peerPool id = some inner → inner ≠ [] → alookup inner topic = none →
          isSecured? st id topic now = none ∧ isActive? st id topic = none) ∧
    (∀ (net : NetEnv) (st : PssState) (toB : List Nat) (topic : Nat)
        (msg : List Nat) (now : Nat),
        SendSym net st toB topic msg now = none ↔
          ∃ inner, alookup st.peerPool (potAddrOf toB) = some inner ∧
            alookup inner topic = none) := by
  refine ⟨?_, ?_, ?_⟩
  · intro st id topic now h
    constructor
    · unfold isSecured?
      rw [h]
    · unfold isActive?
      rw [h]
  · intro st id topic now inner houter _ hinner
    constructor
    · simp [isSecured?, houter, hinner]
    · simp [isActive?, houter, hinner]
  · intro net st toB topic msg now
    cases hs : isSecured? st (potAddrOf toB) topic now with
    | none =>
      simp only [SendSym, hs]
      simpa using (isSecured_none_iff st (potAddrOf toB) topic now).1 hs
    | some b =>
      have hnotfault : ¬∃ inner, alookup st.peerPool (potAddrOf toB) = some inner ∧
          alookup inner topic = none := by
        intro hex
        have := (isSecured_none_iff st (potAddrOf toB) topic now).2 hex
        rw [hs] at this
        exact absurd this (by simp)
      cases b with
      | false => simp only [SendSym, hs]; simpa using hnotfault
      | true =>
        obtain ⟨psp, hpget, hsend, _⟩ := isSecured_true_pget st (potAddrOf toB) topic now hs
        simp only [SendSym, hs, hpget]
        cases hk : psp.sendsymkey.bind (st.wkeys.get? ·) with
        | none => simp only [hk]; simpa using hnotfault
        | some rawkey => simp only [hk]; simpa using hnotfault

/-- A state whose pool has address `potAddrOf [2]` only under topic 1. -/
def stC10 : PssState :=
  { st0 with peerPool := [(potAddrOf [2], [(1, defaultPeer)])] }

/-- C10 witness: concrete instances of all three parts — address absent,
topic absent under a present address, and the `SendSym` totality
equivalence. -/
theorem C10_witness :
    (isSecured? st0 [3] 1 5 = some false ∧ isActive? st0 [3] 1 = some false) ∧
    (isSecured? stC10 (potAddrOf [2]) 2 5 = none ∧ isActive? stC10 (potAddrOf [2]) 2 = none) ∧
    (SendSym netW stC10 [2] 2 [4] 5 = none ↔
      ∃ inner, alookup stC10.peerPool (potAddrOf [2]) = some inner ∧
        alookup inner 2 = none) :=
  ⟨C10_lookup_totality.1 st0 [3] 1 5 (by decide),
   C10_lookup_totality.2.1 stC10 (potAddrOf [2]) 2 5 [(1, defaultPeer)] (by decide)
     (by decide) (by decide),
   C10_lookup_totality.2.2 netW stC10 [2] 2 [4] 5⟩

/-! ### Claim C9 — reverse index identifies the sender -/

/-- An inbound symkey id has a (nonempty) reverse-index entry. -/
def hasRevEntry (st : PssState) (kid : Nat) : Bool :=
  match alookup st.reverseKeyPool kid with
  | none => false
  | some inner => !inner.isEmpty

/-- Invariant: every installed inbound symkey id has a reverse-index
entry. -/
def RevInvB (st : PssState) : Bool :=
  st.recvsymkeys.all (hasRevEntry st)

/-- An upsert never produces the empty map. -/
theorem aupd_ne_nil {α β : Type} [DecidableEq α] (l : List (α × β)) (k : α) (v : β) :
    aupd l k v ≠ [] := by
  cases l with
  | nil => simp [aupd]
  | cons hd tl =>
    rw [aupd]
    split_ifs <;> simp

/-- `RevInvB` only reads the inbound-key list and the reverse index. -/
theorem RevInvB_congr (st st2 : PssState)
    (h1 : st2.recvsymkeys = st.recvsymkeys) (h2 : st2.reverseKeyPool = st.reverseKeyPool) :
    RevInvB st2 = RevInvB st := by
  unfold RevInvB hasRevEntry
  rw [h1, h2]

/-- `SetIncomingSymmetricKey` preserves the reverse-index invariant: the
fresh id receives an entry and existing ids keep theirs. -/
theorem RevInvB_SetIncoming (st : PssState) (a : List Nat) (t : Nat) (k : List Nat) (now : Nat)
    (h : RevInvB st = true) :
    RevInvB (SetIncomingSymmetricKey st a t k now) = true := by
  unfold RevInvB at h ⊢
  rw [List.all_eq_true] at h ⊢
  intro kid hkid
  have hkeys : (SetIncomingSymmetricKey st a t k now).recvsymkeys =
      st.recvsymkeys ++ [st.wkeys.length] := rfl
  have hrpool : (SetIncomingSymmetricKey st a t k now).reverseKeyPool =
      aupd st.reverseKeyPool st.wkeys.length
        (aupd ((alookup st.reverseKeyPool st.wkeys.length).getD []) t a) := rfl
  rw [hkeys] at hkid
  unfold hasRevEntry
  rw [hrpool]
  by_cases hk : kid = st.wkeys.length
  · subst hk
    rw [alookup_aupd_self]
    simp [aupd_ne_nil]
  · rw [alookup_aupd_ne _ _ _ _ (fun he => hk he.symm)]
    have hmem : kid ∈ st.recvsymkeys := by
      rcases List.mem_append.1 hkid with hm | hm
      · exact hm
      · exact absurd (List.mem_singleton.1 hm) hk
    have := h kid hmem
    unfold hasRevEntry at this
    exact this

/-- `Forward` only writes the forward cache: every other field of the state
is preserved. -/
theorem Forward_preserves (net : NetEnv) (st : PssState) (msg : PssMsg) (now : Nat) :
    (Forward net st msg now).1.recvsymkeys = st.recvsymkeys ∧
    (Forward net st msg now).1.reverseKeyPool = st.reverseKeyPool ∧
    (Forward net st msg now).1.peerPool = st.peerPool ∧
    (Forward net st msg now).1.wkeys = st.wkeys := by
  unfold Forward
  split_ifs with h1
  · simp
  · simp only [addFwdCacheExpire]
    split_ifs <;> simp

/-- `SendSym` never touches the inbound-key list or the reverse index. -/
theorem SendSym_preserves (net : NetEnv) (st : PssState) (toB : List Nat) (topic : Nat)
    (msg : List Nat) (now : Nat) (r : PssState × SendRes × Option SealInfo × List (List Nat × Bool))
    (h : SendSym net st toB topic msg now = some r) :
    r.1.recvsymkeys = st.recvsymkeys ∧ r.1.reverseKeyPool = st.reverseKeyPool := by
  cases hs : isSecured? st (potAddrOf toB) topic now with
  | none =>
    simp only [SendSym, hs] at h
    exact absurd h (by simp)
  | some b =>
    cases b with
    | false =>
      simp only [SendSym, hs, Option.some_inj] at h
      subst h
      exact ⟨rfl, rfl⟩
    | true =>
      cases hp : pget st.peerPool (potAddrOf toB) topic with
      | none =>
        simp only [SendSym, hs, hp] at h
        exact absurd h (by simp)
      | some psp =>
        cases hk : psp.sendsymkey.bind (st.wkeys.get? ·) with
        | none =>
          simp only [SendSym, hs, hp, hk, Option.some_inj] at h
          subst h
          exact ⟨rfl, rfl⟩
        | some rawkey =>
          simp only [SendSym, hs, hp, hk, Option.some_inj] at h
          subst h
          exact ⟨(Forward_preserves net st _ now).1, (Forward_preserves net st _ now).2.1⟩

/-- C9: (i) whenever the symmetric demultiplex loop of the dispatcher opens
an inbound envelope with key id K, the sender it yields is exactly the
reverse-index entry under (K, envelope topic); (ii) a (K, topic) pair maps
to at most one address; (iii) `SetIncomingSymmetricKey` appends the fresh
id to the inbound list and always writes its reverse-index entry;
(iv) `SetOutgoingSymmetricKey`, `AddPublicKey` and the cache writers never
touch the reverse index or the inbound list, and both `SetIncoming` and a
full `Process` step preserve the invariant that every installed inbound id
has a reverse-index entry. -/
theorem C9_reverse_index :
    (∀ (st : PssState) (e : Envelope) (l : List Nat) (kid : Nat) (sender : List Nat),
        symTryList st e l = some (kid, sender) → sender = revLookupD st kid e.topic) ∧
    (∀ (st : PssState) (kid t : Nat) (a b : List Nat),
        alookup ((alookup st.reverseKeyPool kid).getD []) t = some a →
        alookup ((alookup st.reverseKeyPool kid).getD []) t = some b → a = b) ∧
    (∀ (st : PssState) (a : List Nat) (t : Nat) (k : List Nat) (now : Nat),
        (SetIncomingSymmetricKey st a t k now).recvsymkeys =
          st.recvsymkeys ++ [st.wkeys.length] ∧
        ∃ inner,
          alookup (SetIncomingSymmetricKey st a t k now).reverseKeyPool st.wkeys.length =
            some inner ∧ alookup inner t = some a) ∧
    (∀ (st : PssState) (a : List Nat) (t : Nat) (k : List Nat) (pk now : Nat),
        (SetOutgoingSymmetricKey st a t k now).reverseKeyPool = st.reverseKeyPool ∧
        (SetOutgoingSymmetricKey st a t k now).recvsymkeys = st.recvsymkeys ∧
        (AddPublicKey st a t pk).reverseKeyPool = st.reverseKeyPool ∧
        (AddPublicKey st a t pk).recvsymkeys = st.recvsymkeys ∧
        (addFwdCacheSender st a now).reverseKeyPool = st.reverseKeyPool ∧
        (addFwdCacheSender st a now).recvsymkeys = st.recvsymkeys ∧
        (addFwdCacheExpire st now now).reverseKeyPool = st.reverseKeyPool ∧
        (addFwdCacheExpire st now now).recvsymkeys = st.recvsymkeys) ∧
    (∀ (st : PssState) (a : List Nat) (t : Nat) (k : List Nat) (now : Nat),
        RevInvB st = true → RevInvB (SetIncomingSymmetricKey st a t k now) = true) ∧
    (∀ (net : NetEnv) (st : PssState) (e : Envelope) (freshKey : List Nat) (now : Nat)
        (r : PssState × ProcOut × Option SealInfo × List (List Nat × Bool)),
        Process net st e freshKey now = some r → RevInvB st = true → RevInvB r.1 = true) := by
  refine ⟨?_, ?_, ?_, ?_, ?_, ?_⟩
  · intro st e l
    induction l with
    | nil => intro kid sender h; exact absurd h (by simp [symTryList])
    | cons kid0 rest ih =>
      intro kid sender h
      cases hw : st.wkeys.get? kid0 with
      | none =>
        simp only [symTryList, hw] at h
        exact ih kid sender h
      | some key =>
        cases ho : openSymmetric e key with
        | none =>
          simp only [symTryList, hw, ho] at h
          exact ih kid sender h
        | some pl =>
          simp only [symTryList, hw, ho, Option.some_inj, Prod.mk.injEq] at h
          rw [← h.1]
          exact h.2.symm
  · intro st kid t a b h1 h2
    rw [h1, Option.some_inj] at h2
    exact h2
  · intro st a t k now
    exact ⟨rfl,
      ⟨aupd ((alookup st.reverseKeyPool st.wkeys.length).getD []) t a,
        alookup_aupd_self _ _ _, alookup_aupd_self _ _ _⟩⟩
  · intro st a t k pk now
    exact ⟨rfl, rfl, rfl, rfl, rfl, rfl, rfl, rfl⟩
  · exact RevInvB_SetIncoming
  · intro net st e freshKey now r h hinv
    cases hsym : symTryList st e st.recvsymkeys with
    | some kf =>
      obtain ⟨kid, from0⟩ := kf
      cases hs : isSecured? st from0 e.topic now with
      | none =>
        simp only [Process, hsym, hs] at h
        exact absurd h (by simp)
      | some b =>
        cases b with
        | false =>
          simp only [Process, hsym, hs, Option.some_inj] at h
          subst h
          exact hinv
        | true =>
          by_cases hh : (alookup st.handlers e.topic).getD 0 = 0
          · simp only [Process, hsym, hs, if_pos hh, Option.some_inj] at h
            subst h
            exact hinv
          · simp only [Process, hsym, hs, if_neg hh, Option.some_inj] at h
            subst h
            exact hinv
    | none =>
      cases ha : openAsymmetric e with
      | none =>
        simp only [Process, hsym, ha, Option.some_inj] at h
        subst h
        exact hinv
      | some ps =>
        obtain ⟨payload, sigValid⟩ := ps
        cases sigValid with
        | false =>
          simp only [Process, hsym, ha, if_true, eq_self_iff_true, Option.some_inj] at h
          subst h
          exact hinv
        | true =>
          cases payload with
          | raw bs =>
            simp only [Process, hsym, ha, Bool.true_eq_false, if_false,
              Option.some_inj] at h
            subst h
            exact hinv
          | keymsg fromB key =>
            cases hsec : isSecured? (SetOutgoingSymmetricKey st (potAddrOf fromB) e.topic key now)
                (potAddrOf fromB) e.topic now with
            | none =>
              simp only [Process, hsym, ha, Bool.true_eq_false, if_false, hsec] at h
              exact absurd h (by simp)
            | some b2 =>
              simp only [Process, hsym, ha, Bool.true_eq_false, if_false, hsec] at h
              have hout : RevInvB (SetOutgoingSymmetricKey st (potAddrOf fromB) e.topic key now)
                  = true := (RevInvB_congr st _ rfl rfl).trans hinv
              cases b2 with
              | true =>
                simp only [Option.some_inj] at h
                subst h
                exact hout
              | false =>
                cases hsend : SendSym net
                    (SetIncomingSymmetricKey
                      { SetOutgoingSymmetricKey st (potAddrOf fromB) e.topic key now with
                        wkeys := (SetOutgoingSymmetricKey st (potAddrOf fromB) e.topic key
                            now).wkeys ++ [freshKey] }
                      (potAddrOf fromB) e.topic freshKey now)
                    fromB e.topic freshKey now with
                | none =>
                  simp only [hsend] at h
                  exact absurd h (by simp)
                | some r4 =>
                  obtain ⟨r41, r42, r43, r44⟩ := r4
                  simp only [hsend, Option.some_inj] at h
                  have hpres := SendSym_preserves net _ fromB e.topic freshKey now
                    (r41, r42, r43, r44) hsend
                  have hmid : RevInvB (SetIncomingSymmetricKey
                      { SetOutgoingSymmetricKey st (potAddrOf fromB) e.topic key now with
                        wkeys := (SetOutgoingSymmetricKey st (potAddrOf fromB) e.topic key
                            now).wkeys ++ [freshKey] }
                      (potAddrOf fromB) e.topic freshKey now) = true := by
                    apply RevInvB_SetIncoming
                    exact (RevInvB_congr st _ rfl rfl).trans hinv
                  have hr41 : RevInvB r41 = true :=
                    ((RevInvB_congr _ r41 hpres.1 hpres.2).trans hmid)
                  subst h
                  exact hr41

/-! ### Claim C2 — handshake key installation in `Process` -/

/-- `preparePeerTopic` leaves a record for `(a, t)` in the pool: the
existing one, or the Go zero `&pssPeer{}`. -/
theorem pget_prep (pool : List (List Nat × List (Nat × PssPeerSt))) (a : List Nat) (t : Nat) :
    pget (prepPool pool a t) a t = some ((pget pool a t).getD defaultPeer) := by
  cases houter : alookup pool a with
  | none =>
    simp only [prepPool, houter, pget, alookup_aupd_self]
    simp [alookup]
  | some inner =>
    cases hinner : alookup inner t with
    | none =>
      simp only [prepPool, houter, hinner, pget, alookup_aupd_self]
      simp [alookup_aupd_self]
    | some p =>
      simp [prepPool, houter, hinner, pget]

/-- A pointer write through `updPool` is visible at the written slot. -/
theorem pget_upd (pool : List (List Nat × List (Nat × PssPeerSt))) (a : List Nat) (t : Nat)
    (f : PssPeerSt → PssPeerSt) (p : PssPeerSt) (h : pget pool a t = some p) :
    pget (updPool pool a t f) a t = some (f p) := by
  cases houter : alookup pool a with
  | none =>
    simp only [pget, houter] at h
    exact absurd h (by simp)
  | some inner =>
    cases hinner : alookup inner t with
    | none =>
      simp only [pget, houter, hinner] at h
      exact absurd h (by simp)
    | some psp =>
      simp only [pget, houter, hinner, Option.some_inj] at h
      subst h
      simp only [updPool, houter, hinner, pget, alookup_aupd_self]

/-- The peer record after `SetOutgoingSymmetricKey`: `sendsymkey` points at
the freshly registered key, expiry is bumped, everything else kept. -/
theorem pget_SetOutgoing (st : PssState) (a : List Nat) (t : Nat) (key : List Nat) (now : Nat) :
    pget (SetOutgoingSymmetricKey st a t key now).peerPool a t =
      some { (pget st.peerPool a t).getD defaultPeer with
             sendsymkey := some st.wkeys.length, symkeyexpires := now + oneYear } :=
  pget_upd _ a t _ _ (pget_prep st.peerPool a t)

/-- The peer record after `SetIncomingSymmetricKey`: `recvsymkey` points at
the freshly registered key, expiry is bumped, everything else kept. -/
theorem pget_SetIncoming (st : PssState) (a : List Nat) (t : Nat) (key : List Nat) (now : Nat) :
    pget (SetIncomingSymmetricKey st a t key now).peerPool a t =
      some { (pget st.peerPool a t).getD defaultPeer with
             recvsymkey := some st.wkeys.length, symkeyexpires := now + oneYear } :=
  pget_upd _ a t _ _ (pget_prep st.peerPool a t)

/-- `isSecured` computed from the peer record, when one exists. -/
theorem isSecured?_of_pget (st : PssState) (a : List Nat) (t now : Nat) (p : PssPeerSt)
    (h : pget st.peerPool a t = some p) :
    isSecured? st a t now =
      some (if p.symkeyexpires < now then false
            else if p.recvsymkey = none ∨ p.sendsymkey = none then false else true) := by
  cases houter : alookup st.peerPool a with
  | none =>
    simp only [pget, houter] at h
    exact absurd h (by simp)
  | some inner =>
    cases hinner : alookup inner t with
    | none =>
      simp only [pget, houter, hinner] at h
      exact absurd h (by simp)
    | some psp =>
      simp only [pget, houter, hinner, Option.some_inj] at h
      subst h
      simp only [isSecured?, houter, hinner]
      split_ifs <;> rfl

/-- C2: when `Process` asymmetrically opens a validly signed envelope whose
payload deserializes as a handshake key message `{from, key}`, it returns
success having installed `key` as the outbound symkey for
`(potAddrOf from, envelope topic)`; exactly when the pair is not secured
after that installation, it additionally installs the generated fresh key
as the inbound symkey and sends that fresh raw key back to `from`
symmetrically, sealed under the freshly installed outbound key (the seal
record carries raw key `key`); when the pair was already secured, nothing
further happens — no envelope is sealed and no transport is touched. -/
theorem C2_handshake_key_install (net : NetEnv) (st : PssState) (e : Envelope)
    (fromB key freshKey : List Nat) (now : Nat)
    (hc : e.crypt = EnvCrypt.asym true true)
    (hp : e.payload = EnvPayload.keymsg fromB key) :
    ∃ st4 sl tr,
      Process net st e freshKey now = some (st4, .ok, sl, tr) ∧
      outboundRawKey st4 (potAddrOf fromB) e.topic = some key ∧
      (isSecured? (SetOutgoingSymmetricKey st (potAddrOf fromB) e.topic key now)
          (potAddrOf fromB) e.topic now = some true →
        st4 = SetOutgoingSymmetricKey st (potAddrOf fromB) e.topic key now ∧
        sl = none ∧ tr = []) ∧
      (isSecured? (SetOutgoingSymmetricKey st (potAddrOf fromB) e.topic key now)
          (potAddrOf fromB) e.topic now = some false →
        inboundRawKey st4 (potAddrOf fromB) e.topic = some freshKey ∧
        sl = some { sealTo := fromB, sealTopic := e.topic, sealPayload := freshKey,
                    sealKey := key }) := by
  have hsym := symTryList_asym st e true true hc st.recvsymkeys
  have hopen : openAsymmetric e = some (e.payload, true) := by
    simp [openAsymmetric, hc]
  have hpget1 := pget_SetOutgoing st (potAddrOf fromB) e.topic key now
  cases hsec : isSecured? (SetOutgoingSymmetricKey st (potAddrOf fromB) e.topic key now)
      (potAddrOf fromB) e.topic now with
  | none =>
    have hcontra := isSecured?_of_pget _ (potAddrOf fromB) e.topic now _ hpget1
    rw [hsec] at hcontra
    exact absurd hcontra (by simp)
  | some b =>
    cases b with
    | true =>
      refine ⟨SetOutgoingSymmetricKey st (potAddrOf fromB) e.topic key now, none, [],
        ?_, ?_, fun _ => ⟨rfl, rfl, rfl⟩, fun hfalse => absurd hfalse (by simp)⟩
      · simp only [Process, hsym, hopen, hp, Bool.true_eq_false, if_false, hsec]
      · unfold outboundRawKey
        rw [hpget1]
        exact get_append_len st.wkeys key
    | false =>
      have hpget2 : pget ({ SetOutgoingSymmetricKey st (potAddrOf fromB) e.topic key now with
          wkeys := (SetOutgoingSymmetricKey st (potAddrOf fromB) e.topic key now).wkeys ++
            [freshKey] } : PssState).peerPool (potAddrOf fromB) e.topic =
          some { (pget st.peerPool (potAddrOf fromB) e.topic).getD defaultPeer with
                 sendsymkey := some st.wkeys.length, symkeyexpires := now + oneYear } := hpget1
      have hpget3 := pget_SetIncoming
        { SetOutgoingSymmetricKey st (potAddrOf fromB) e.topic key now with
          wkeys := (SetOutgoingSymmetricKey st (potAddrOf fromB) e.topic key now).wkeys ++
            [freshKey] }
        (potAddrOf fromB) e.topic freshKey now
      rw [hpget2] at hpget3
      simp only [Option.getD_some] at hpget3
      have hgetk : (SetIncomingSymmetricKey
          { SetOutgoingSymmetricKey st (potAddrOf fromB) e.topic key now with
            wkeys := (SetOutgoingSymmetricKey st (potAddrOf fromB) e.topic key now).wkeys ++
              [freshKey] }
          (potAddrOf fromB) e.topic freshKey now).wkeys.get? st.wkeys.length = some key := by
        show (((st.wkeys ++ [key]) ++ [freshKey]) ++ [freshKey]).get? st.wkeys.length = some key
        rw [get_append_lt _ [freshKey] _ (by simp), get_append_lt _ [freshKey] _ (by simp)]
        exact get_append_len st.wkeys key
      have hgetf : (SetIncomingSymmetricKey
          { SetOutgoingSymmetricKey st (potAddrOf fromB) e.topic key now with
            wkeys := (SetOutgoingSymmetricKey st (potAddrOf fromB) e.topic key now).wkeys ++
              [freshKey] }
          (potAddrOf fromB) e.topic freshKey now).wkeys.get?
          ((st.wkeys ++ [key]) ++ [freshKey]).length = some freshKey :=
        get_append_len ((st.wkeys ++ [key]) ++ [freshKey]) freshKey
      have hsec3 : isSecured? (SetIncomingSymmetricKey
          { SetOutgoingSymmetricKey st (potAddrOf fromB) e.topic key now with
            wkeys := (SetOutgoingSymmetricKey st (potAddrOf fromB) e.topic key now).wkeys ++
              [freshKey] }
          (potAddrOf fromB) e.topic freshKey now) (potAddrOf fromB) e.topic now = some true := by
        rw [isSecured?_of_pget _ (potAddrOf fromB) e.topic now _ hpget3]
        have hexp : ¬(now + oneYear < now) := by omega
        simp [hexp]
      have hsend0 : ∃ st4 r2 tr0, SendSym net
          (SetIncomingSymmetricKey
            { SetOutgoingSymmetricKey st (potAddrOf fromB) e.topic key now with
              wkeys := (SetOutgoingSymmetricKey st (potAddrOf fromB) e.topic key now).wkeys ++
                [freshKey] }
            (potAddrOf fromB) e.topic freshKey now)
          fromB e.topic freshKey now =
          some (st4, r2,
            some (SealInfo.mk fromB e.topic freshKey key), tr0) ∧
          st4.peerPool = (SetIncomingSymmetricKey
            { SetOutgoingSymmetricKey st (potAddrOf fromB) e.topic key now with
              wkeys := (SetOutgoingSymmetricKey st (potAddrOf fromB) e.topic key now).wkeys ++
                [freshKey] }
            (potAddrOf fromB) e.topic freshKey now).peerPool ∧
          st4.wkeys = (SetIncomingSymmetricKey
            { SetOutgoingSymmetricKey st (potAddrOf fromB) e.topic key now with
              wkeys := (SetOutgoingSymmetricKey st (potAddrOf fromB) e.topic key now).wkeys ++
                [freshKey] }
            (potAddrOf fromB) e.topic freshKey now).wkeys := by
        simp only [SendSym, hsec3, hpget3, Option.bind, hgetk]
        exact ⟨_, _, _, rfl, (Forward_preserves net _ _ now).2.2.1,
          (Forward_preserves net _ _ now).2.2.2⟩
      obtain ⟨st4, r2, tr0, hsend, hpp, hwk⟩ := hsend0
      refine ⟨st4, _, tr0, ?_, ?_, fun htrue => absurd htrue (by simp),
        fun _ => ⟨?_, rfl⟩⟩
      · simp only [Process, hsym, hopen, hp, Bool.true_eq_false, if_false, hsec, hsend]
      · unfold outboundRawKey
        rw [hpp, hpget3, hwk]
        exact hgetk
      · unfold inboundRawKey
        rw [hpp, hpget3, hwk]
        exact hgetf

/-- The handshake envelope of the C2 witness. -/
def envC2 : Envelope := { topic := 1, crypt := .asym true true, payload := .keymsg [3] [7] }

/-- C2 witness: the handshake of `envC2` against the empty state installs
outbound key `[7]`, and — the pair not being secured yet — inbound key
`[8]`, sending `[8]` back sealed under `[7]`. -/
theorem C2_witness :
    ∃ st4 sl tr,
      Process netW st0 envC2 [8] 2 = some (st4, .ok, sl, tr) ∧
      outboundRawKey st4 (potAddrOf [3]) envC2.topic = some [7] ∧
      (isSecured? (SetOutgoingSymmetricKey st0 (potAddrOf [3]) envC2.topic [7] 2)
          (potAddrOf [3]) envC2.topic 2 = some true →
        st4 = SetOutgoingSymmetricKey st0 (potAddrOf [3]) envC2.topic [7] 2 ∧
        sl = none ∧ tr = []) ∧
      (isSecured? (SetOutgoingSymmetricKey st0 (potAddrOf [3]) envC2.topic [7] 2)
          (potAddrOf [3]) envC2.topic 2 = some false →
        inboundRawKey st4 (potAddrOf [3]) envC2.topic = some [8] ∧
        sl = some { sealTo := [3], sealTopic := envC2.topic, sealPayload := [8],
                    sealKey := [7] }) :=
  C2_handshake_key_install netW st0 envC2 [3] [7] [8] 2 rfl rfl

/-- State for the C9 witness: one installed inbound key. -/
def stC9 : PssState := SetIncomingSymmetricKey st0 (potAddrOf [3]) 1 [7] 5

/-- Envelope the C9 witness opens symmetrically with the installed key. -/
def envC9 : Envelope := { topic := 1, crypt := .sym [7], payload := .raw [2] }

/-- C9 witness: at a concrete state the demultiplex loop identifies the
sender through the reverse index, the fresh id gets its entry, and both a
key installation and a `Process` step preserve the invariant. -/
theorem C9_witness :
    potAddrOf [3] = revLookupD stC9 0 1 ∧
    (SetIncomingSymmetricKey st0 (potAddrOf [3]) 1 [7] 5).recvsymkeys =
      st0.recvsymkeys ++ [st0.wkeys.length] ∧
    RevInvB (SetIncomingSymmetricKey stC9 (potAddrOf [4]) 2 [8] 6) = true ∧
    RevInvB stC9 = true :=
  ⟨C9_reverse_index.1 stC9 envC9 [0] 0 (potAddrOf [3]) (by decide),
   (C9_reverse_index.2.2.1 st0 (potAddrOf [3]) 1 [7] 5).1,
   C9_reverse_index.2.2.2.2.1 stC9 (potAddrOf [4]) 2 [8] 6 (by decide),
   C9_reverse_index.2.2.2.2.2 netW stC9 envC9 [9] 6 (stC9, .ok, none, [])
     (by decide) (by decide)⟩

end Pss
